import Mathlib

/-!
Shallow embedding of the production-scheduler core: the Postgres schema with
its CHECK/UNIQUE constraints and triggers (`update_updated_at_column`,
`log_order_status_change`), and the GraphQL mutations/queries issued by the
React components (`UPDATE_ORDER_STATUS`, `UPDATE_RESOURCE_STATUS`,
`GET_RESOURCES` aggregate, `GET_ORDER_BY_ID`).  Timestamps are abstract ticks
(`Nat`); `DECIMAL(10,2)` columns are exact hundredths and are modelled as integer
counts of 0.01 (so `8.00` is `800`); `uuid` keys are `Nat`,
generated fresh the way `gen_random_uuid()` guarantees freshness.
-/

namespace ProdSched

/-- `CREATE TYPE order_status AS ENUM (...)`. -/
inductive OrderStatus
  | pending
  | scheduled
  | in_progress
  | completed
  | cancelled
deriving DecidableEq, Repr, Fintype

/-- `CREATE TYPE resource_type AS ENUM (...)`. -/
inductive ResourceType
  | machine
  | worker
  | material
deriving DecidableEq, Repr

/-- `CREATE TYPE resource_status AS ENUM (...)`. -/
inductive ResourceStatus
  | available
  | in_use
  | maintenance
  | unavailable
deriving DecidableEq, Repr, Fintype

/-- A row of `production_orders`. -/
structure ProductionOrder where
  id : Nat
  order_number : String
  product_name : String
  quantity : Int
  status : OrderStatus
  priority : Int
  scheduled_start : Option Nat
  scheduled_end : Option Nat
  actual_start : Option Nat
  actual_end : Option Nat
  notes : Option String
  created_at : Nat
  updated_at : Nat
deriving DecidableEq, Repr

/-- A row of `resources`. -/
structure Resource where
  id : Nat
  name : String
  type : ResourceType
  status : ResourceStatus
  capacity : Option Int
  hourly_cost : Option Int
  description : Option String
  created_at : Nat
  updated_at : Nat
deriving DecidableEq, Repr

/-- A row of `resource_allocations`. -/
structure ResourceAllocation where
  id : Nat
  order_id : Nat
  resource_id : Nat
  allocated_quantity : Int
  start_time : Nat
  end_time : Option Nat
  notes : Option String
  created_at : Nat
  updated_at : Nat
deriving DecidableEq, Repr

/-- A row of `order_events`.  The trigger's `jsonb_build_object` payload is
the `(order_number, product_name)` pair. -/
structure OrderEvent where
  id : Nat
  order_id : Nat
  event_type : String
  old_status : Option OrderStatus
  new_status : Option OrderStatus
  changed_by : Option String
  metadata : Option (String × String)
  created_at : Nat
deriving DecidableEq, Repr

/-- The database: the four tables of the schema, rows in insertion order. -/
structure DB where
  orders : List ProductionOrder
  resources : List Resource
  allocations : List ResourceAllocation
  order_events : List OrderEvent
deriving DecidableEq, Repr

def emptyDB : DB := ⟨[], [], [], []⟩

/-- Events of one order: `order_events` rows with `order_id = oid`. -/
def eventsFor (db : DB) (oid : Nat) : List OrderEvent :=
  db.order_events.filter (fun e => e.order_id == oid)

/-- `production_orders_by_pk` lookup. -/
def getOrder (db : DB) (oid : Nat) : Option ProductionOrder :=
  db.orders.find? (fun o => o.id == oid)

/-- `resources_by_pk` lookup. -/
def getResource (db : DB) (rid : Nat) : Option Resource :=
  db.resources.find? (fun r => r.id == rid)

/-- Errors Postgres raises on `INSERT INTO production_orders`:
`ValidationError` for a CHECK violation (`quantity > 0`,
`priority BETWEEN 1 AND 5`), `DuplicateKey` for the UNIQUE `order_number`. -/
inductive CreateError
  | ValidationError
  | DuplicateKey
deriving DecidableEq, Repr

/-- `INSERT INTO production_orders`: Postgres evaluates the row CHECK
constraints, then the unique index on `order_number`; on success the row is
appended with `created_at = updated_at = NOW()` and a fresh id.  The
`status` column is an explicit insert value (`DEFAULT 'pending'` when the
caller omits it, as `createOrder` below does). -/
def insertOrderRow (db : DB) (num pn : String) (qty prio : Int)
    (st : OrderStatus) (ss se : Option Nat) (now : Nat) :
    Except CreateError (Nat × DB) :=
  if 0 < qty ∧ 1 ≤ prio ∧ prio ≤ 5 then
    if db.orders.any (fun o => o.order_number == num) then
      .error .DuplicateKey
    else
      let oid := db.orders.length
      .ok (oid, { db with orders := db.orders ++
        [⟨oid, num, pn, qty, st, prio, ss, se, none, none, none, now, now⟩] })
  else .error .ValidationError

/-- `CreateOrder`: the insert a caller issues without naming `status`, so the
column takes its schema default `'pending'`. -/
def createOrder (db : DB) (num pn : String) (qty prio : Int)
    (ss se : Option Nat) (now : Nat) : Except CreateError (Nat × DB) :=
  insertOrderRow db num pn qty prio .pending ss se now

/-- One `UPDATE production_orders ... WHERE id = oid` as the two row triggers
see it: `update_updated_at_column` overwrites `NEW.updated_at` with `NOW()`,
and `log_order_status_change` appends one `status_change` event exactly when
`OLD.status IS DISTINCT FROM NEW.status`.  `f` is the column assignment of
the UPDATE's SET list. -/
def updateOrderRow (db : DB) (oid : Nat)
    (f : ProductionOrder → ProductionOrder) (now : Nat) : DB :=
  match db.orders.find? (fun o => o.id == oid) with
  | none => db
  | some o =>
      { db with
        orders := db.orders.map
          (fun p => if p.id == oid then { f p with updated_at := now } else p),
        order_events :=
          if (f o).status == o.status then db.order_events
          else db.order_events ++
            [⟨db.order_events.length, o.id, "status_change",
              some o.status, some (f o).status, none,
              some ((f o).order_number, (f o).product_name), now⟩] }

/-- What `update_production_orders_by_pk` returns: the selection set
`{ id status updated_at }` of the updated row. -/
structure StatusPayload where
  id : Nat
  status : OrderStatus
  updated_at : Nat
deriving DecidableEq, Repr

/-- The `UPDATE_ORDER_STATUS` mutation of `OrdersList`
(`_set: { status: $status }`): Hasura updates the row by primary key and
returns its new `{ id status updated_at }`, or `null` when the id is
unknown.  No other check is made. -/
def updateOrderStatus (db : DB) (oid : Nat) (s : OrderStatus) (now : Nat) :
    Option StatusPayload × DB :=
  match db.orders.find? (fun o => o.id == oid) with
  | none => (none, db)
  | some _ =>
      (some ⟨oid, s, now⟩,
       updateOrderRow db oid (fun o => { o with status := s }) now)

/-- The `UPDATE_RESOURCE_STATUS` mutation of `ResourcesList`
(`_set: { status: $status }`): sets the requested status on the row by
primary key (plus the `updated_at` trigger) and reports success; `null` when
the id is unknown.  No other check is made. -/
def updateResourceStatus (db : DB) (rid : Nat) (s : ResourceStatus)
    (now : Nat) : Option (Nat × ResourceStatus × Nat) × DB :=
  match db.resources.find? (fun r => r.id == rid) with
  | none => (none, db)
  | some _ =>
      (some (rid, s, now),
       { db with resources :=
          db.resources.map (fun r =>
            if r.id == rid then { r with status := s, updated_at := now }
            else r) })

/-- Errors Postgres raises on `INSERT INTO resource_allocations`: the two
`REFERENCES` foreign keys and the `UNIQUE(order_id, resource_id, start_time)`
constraint.  The schema has no capacity constraint. -/
inductive AllocError
  | OrderNotFound
  | ResourceNotFound
  | UniqueViolation
deriving DecidableEq, Repr

/-- `INSERT INTO resource_allocations`: foreign keys, then the uniqueness
triple; on success the row is appended with a fresh id. -/
def insertAllocation (db : DB) (oid rid : Nat) (qty : Int)
    (start : Nat) (stop : Option Nat) (now : Nat) :
    Except AllocError (Nat × DB) :=
  if ¬ db.orders.any (fun o => o.id == oid) then .error .OrderNotFound
  else if ¬ db.resources.any (fun r => r.id == rid) then .error .ResourceNotFound
  else if db.allocations.any (fun a =>
      a.order_id == oid && a.resource_id == rid && a.start_time == start) then
    .error .UniqueViolation
  else
    let aid := db.allocations.length
    .ok (aid, { db with allocations := db.allocations ++
      [⟨aid, oid, rid, qty, start, stop, none, now, now⟩] })

/-- Does the allocation's `[start_time, end_time)` interval contain instant
`t`?  An open allocation (`end_time` null) contains every `t ≥ start_time`. -/
def containsInstant (a : ResourceAllocation) (t : Nat) : Bool :=
  decide (a.start_time ≤ t) &&
    (match a.end_time with
     | none => true
     | some e => decide (t < e))

/-- The quantity the UI's utilization bar works from: the
`resource_allocations_aggregate { aggregate { sum { allocated_quantity } } }`
field of `GET_RESOURCES`, i.e. the sum over ALL of the resource's allocation
rows, with no time filter. -/
def codeUtilization (db : DB) (rid : Nat) : Int :=
  ((db.allocations.filter (fun a => a.resource_id == rid)).map
    (fun a => a.allocated_quantity)).sum

/-- Modelled from the spec: `Utilization(resourceId, atTime)` — the sum of
`allocated_quantity` over exactly those allocations of the resource whose
interval contains `atTime` (§4.2).  Present for comparison with
`codeUtilization`, the quantity the repository actually computes. -/
def specUtilization (db : DB) (rid : Nat) (t : Nat) : Int :=
  ((db.allocations.filter
      (fun a => a.resource_id == rid && containsInstant a t)).map
    (fun a => a.allocated_quantity)).sum

/-- Modelled from the spec: the §4.1 transition table
{pending→scheduled, pending→cancelled, scheduled→in_progress,
scheduled→cancelled, in_progress→completed, in_progress→cancelled}.
Present for comparison: nothing in the repository evaluates this table. -/
def allowedTransition : OrderStatus → OrderStatus → Bool
  | .pending, .scheduled => true
  | .pending, .cancelled => true
  | .scheduled, .in_progress => true
  | .scheduled, .cancelled => true
  | .in_progress, .completed => true
  | .in_progress, .cancelled => true
  | _, _ => false

/-- The quick-action button `OrdersList` renders for an order, the only
place the front end restricts which status change is offered:
`Schedule` on a pending order, `Start` on a scheduled one, `Complete` on an
in-progress one, nothing otherwise. -/
def uiQuickAction : OrderStatus → Option OrderStatus
  | .pending => some .scheduled
  | .scheduled => some .in_progress
  | .in_progress => some .completed
  | _ => none

/-- Modelled from the spec: the §4.2 `ResourceBusy` condition — the resource
is `in_use`, the requested status is `maintenance` or `unavailable`, and some
allocation of the resource has no `end_time` while its owning order is not
terminal.  Present for comparison: nothing in the repository evaluates it. -/
def specResourceBusy (db : DB) (rid : Nat) (s : ResourceStatus) : Bool :=
  match getResource db rid with
  | none => false
  | some r =>
      r.status == .in_use && (s == .maintenance || s == .unavailable) &&
        db.allocations.any (fun a =>
          a.resource_id == rid && a.end_time.isNone &&
            db.orders.any (fun o =>
              o.id == a.order_id &&
                !(o.status == .completed || o.status == .cancelled)))

/-- The `order_by: { created_at: desc }` comparison of `GET_ORDER_BY_ID`:
event `a` comes before event `b` when it is at least as recent. -/
def eventDescOrder (a b : OrderEvent) : Prop :=
  b.created_at ≤ a.created_at

instance : DecidableRel eventDescOrder :=
  fun a b => Nat.decLe b.created_at a.created_at

instance : IsTotal OrderEvent eventDescOrder :=
  ⟨fun a b => (Nat.le_total b.created_at a.created_at).elim Or.inl Or.inr⟩

instance : IsTrans OrderEvent eventDescOrder :=
  ⟨fun _ _ _ hab hbc => Nat.le_trans hbc hab⟩

/-- `History(orderId, limit)`, as `GET_ORDER_BY_ID` issues it:
`order_events(order_by: { created_at: desc }, limit: n)` nested under the
order — that order's events, most recent first, truncated to `n` rows
(the component passes `n = 10`). -/
def history (db : DB) (oid : Nat) (n : Nat) : List OrderEvent :=
  (List.insertionSort eventDescOrder (eventsFor db oid)).take n

/-- The commands the repository can issue against the database: the two
SQL INSERT shapes of the schema file and the two GraphQL mutations, plus an
UPDATE of a non-status column (`notes`), which Hasura exposes for every
column. -/
inductive Op
  | create (num pn : String) (qty prio : Int) (ss se : Option Nat) (now : Nat)
  | insertRow (num pn : String) (qty prio : Int) (st : OrderStatus)
      (ss se : Option Nat) (now : Nat)
  | changeStatus (oid : Nat) (s : OrderStatus) (now : Nat)
  | setNotes (oid : Nat) (txt : String) (now : Nat)
  | setResourceStatus (rid : Nat) (s : ResourceStatus) (now : Nat)
  | allocate (oid rid : Nat) (qty : Int) (start : Nat) (stop : Option Nat)
      (now : Nat)
deriving DecidableEq, Repr

/-- Run one command; a command Postgres rejects leaves the database as it
was (the failed statement's transaction is rolled back). -/
def applyOp (db : DB) : Op → DB
  | .create num pn qty prio ss se now =>
      match createOrder db num pn qty prio ss se now with
      | .ok (_, db') => db'
      | .error _ => db
  | .insertRow num pn qty prio st ss se now =>
      match insertOrderRow db num pn qty prio st ss se now with
      | .ok (_, db') => db'
      | .error _ => db
  | .changeStatus oid s now => (updateOrderStatus db oid s now).2
  | .setNotes oid txt now =>
      updateOrderRow db oid (fun o => { o with notes := some txt }) now
  | .setResourceStatus rid s now => (updateResourceStatus db rid s now).2
  | .allocate oid rid qty start stop now =>
      match insertAllocation db oid rid qty start stop now with
      | .ok (_, db') => db'
      | .error _ => db

def applyOps (db : DB) (ops : List Op) : DB :=
  ops.foldl applyOp db

/-- Replaying an event log: fold the recorded transitions over a start
status, each `status_change` event landing on its `new_status`. -/
def replayEvents (s : OrderStatus) (es : List OrderEvent) : OrderStatus :=
  es.foldl (fun c e => e.new_status.getD c) s

/-- Does the command insert its order row in the default `pending` state
(the only creation path §4.1 admits)?  True of every non-insert command. -/
def opCreatesPending : Op → Bool
  | .insertRow _ _ _ _ st _ _ _ => st == .pending
  | _ => true

/-- Primary keys of `production_orders` as this embedding generates them:
position in the table. -/
def IdsInv (db : DB) : Prop :=
  db.orders.map (fun p => p.id) = List.range db.orders.length

/-- The `order_events.order_id REFERENCES production_orders(id)` foreign
key, phrased against the id discipline of `IdsInv`. -/
def FKInv (db : DB) : Prop :=
  ∀ e ∈ db.order_events, e.order_id < db.orders.length

/-- §8's replay invariant: each order's status is the replay of its event
log from `pending`. -/
def ReplayInv (db : DB) : Prop :=
  ∀ p ∈ db.orders, replayEvents .pending (eventsFor db p.id) = p.status

/-- Extract the post-state of a successful `production_orders` insert. -/
def orderOkState (r : Except CreateError (Nat × DB)) (d : DB) : DB :=
  match r with
  | .ok (_, db) => db
  | .error _ => d

/-- Extract the post-state of a successful `resource_allocations` insert. -/
def allocOkState (r : Except AllocError (Nat × DB)) (d : DB) : DB :=
  match r with
  | .ok (_, db) => db
  | .error _ => d

/-- A database holding one terminal (`completed`) order, as the seed row
`PO-2024-005` leaves the table. -/
def oneCompletedOrderDB : DB :=
  { emptyDB with orders :=
      [⟨0, "PO-2024-005", "Control Panel Bracket", 75, .completed, 3,
        none, none, none, none, none, 0, 0⟩] }

/-- A database with an `in_use` resource holding an open allocation
(no `end_time`) on an order that is still `in_progress`. -/
def busyResourceDB : DB :=
  { emptyDB with
    orders :=
      [⟨0, "PO-2024-001", "Industrial Valve Type A", 100, .in_progress, 5,
        none, none, none, none, none, 0, 0⟩],
    resources :=
      [⟨0, "CNC Machine 01", .machine, .in_use, some 10000, some 5000,
        none, 0, 0⟩],
    allocations := [⟨0, 0, 0, 5000, 0, none, none, 0, 0⟩] }

/-- A resource with two allocations in disjoint time windows,
`[0, 10)` for 3.00 and `[20, 30)` for 4.00. -/
def twoWindowAllocDB : DB :=
  { emptyDB with
    orders :=
      [⟨0, "PO-2024-002", "Pump Housing Unit", 50, .scheduled, 3,
        none, none, none, none, none, 0, 0⟩],
    resources :=
      [⟨0, "CNC Machine 02", .machine, .available, some 10000, some 5000,
        none, 0, 0⟩],
    allocations :=
      [⟨0, 0, 0, 300, 0, some 10, none, 0, 0⟩,
       ⟨1, 0, 0, 400, 20, some 30, none, 0, 0⟩] }

/-- A resource whose two allocations both cover the instant 5. -/
def overlapAllocDB : DB :=
  { emptyDB with
    orders :=
      [⟨0, "PO-2024-002", "Pump Housing Unit", 50, .scheduled, 3,
        none, none, none, none, none, 0, 0⟩],
    resources :=
      [⟨0, "Assembly Line A", .machine, .available, some 20000, some 3000,
        none, 0, 0⟩],
    allocations :=
      [⟨0, 0, 0, 300, 0, some 10, none, 0, 0⟩,
       ⟨1, 0, 0, 400, 2, none, none, 0, 0⟩] }

/-- The seed worker `John Smith` (capacity 8.00) and the order the seed
script allocates him to. -/
def workerSeedDB : DB :=
  { emptyDB with
    orders :=
      [⟨0, "PO-2024-001", "Industrial Valve Type A", 100, .in_progress, 5,
        some 0, some 48, none, none, none, 0, 0⟩],
    resources :=
      [⟨0, "John Smith", .worker, .available, some 800, some 2500,
        some "Senior Machine Operator", 0, 0⟩] }

/-- The seed script's allocation of 50.00 of `John Smith` (capacity 8.00)
to `PO-2024-001` over the order's scheduled window. -/
def workerOverAlloc : Except AllocError (Nat × DB) :=
  insertAllocation workerSeedDB 0 0 5000 0 (some 48) 0

/-- A database already holding an order numbered `PO-1`. -/
def dupNumberDB : DB :=
  { emptyDB with orders :=
      [⟨0, "PO-1", "valve", 10, .pending, 3,
        none, none, none, none, none, 0, 0⟩] }

/-- C1 counterexample: `completed → pending` is outside the §4.1 transition
table, yet `UPDATE_ORDER_STATUS` on the seed's completed order reports
success and rewrites the status — it neither fails with `InvalidTransition`
nor leaves the order unchanged. -/
theorem updateOrderStatus_accepts_invalid_transition :
    allowedTransition .completed .pending = false ∧
    (updateOrderStatus oneCompletedOrderDB 0 .pending 7).1 = some ⟨0, .pending, 7⟩ ∧
    (getOrder (updateOrderStatus oneCompletedOrderDB 0 .pending 7).2 0).map
      (fun o => o.status) = some .pending :=
  ⟨rfl, rfl, rfl⟩

/-- C1 (amended): the `UPDATE_ORDER_STATUS` mutation performs no transition
validation — for any existing order it reports success and stores the
requested status, whatever the (current, requested) pair; the §4.1 table
survives only as the UI quick-action buttons, which are offered exactly for
pending→scheduled, scheduled→in_progress and in_progress→completed, each of
which the table allows. -/
theorem updateOrderStatus_unvalidated (db : DB) (oid : Nat) (s : OrderStatus)
    (now : Nat) (o : ProductionOrder) (h : getOrder db oid = some o) :
    (updateOrderStatus db oid s now).1 = some ⟨oid, s, now⟩ ∧
    (∀ p ∈ (updateOrderStatus db oid s now).2.orders, p.id = oid → p.status = s) ∧
    (∀ a b, uiQuickAction a = some b → allowedTransition a b = true) := by
  simp only [getOrder] at h
  refine ⟨?_, ?_, by decide⟩
  · unfold updateOrderStatus
    rw [h]
  · intro p hp hpid
    unfold updateOrderStatus updateOrderRow at hp
    rw [h] at hp
    simp only at hp
    rcases List.mem_map.mp hp with ⟨q, _, rfl⟩
    by_cases hq : (q.id == oid) = true
    · rw [if_pos hq]
    · rw [if_neg hq] at hpid ⊢
      exact absurd hpid (by simpa using hq)

/-- C1 (amended) witness at the completed seed order. -/
theorem updateOrderStatus_unvalidated_witness :
    (updateOrderStatus oneCompletedOrderDB 0 .scheduled 3).1 = some ⟨0, .scheduled, 3⟩ ∧
    (∀ p ∈ (updateOrderStatus oneCompletedOrderDB 0 .scheduled 3).2.orders,
      p.id = 0 → p.status = .scheduled) ∧
    (∀ a b, uiQuickAction a = some b → allowedTransition a b = true) :=
  updateOrderStatus_unvalidated oneCompletedOrderDB 0 .scheduled 3
    ⟨0, "PO-2024-005", "Control Panel Bracket", 75, .completed, 3,
      none, none, none, none, none, 0, 0⟩ rfl

/-- C7 counterexample: the spec's `ResourceBusy` condition holds (resource
`in_use`, open allocation, owning order `in_progress`, no force flag exists
to pass), yet `UPDATE_RESOURCE_STATUS` to `maintenance` reports success and
stores the status. -/
theorem updateResourceStatus_ignores_busy :
    specResourceBusy busyResourceDB 0 .maintenance = true ∧
    (updateResourceStatus busyResourceDB 0 .maintenance 9).1 = some (0, .maintenance, 9) ∧
    (getResource (updateResourceStatus busyResourceDB 0 .maintenance 9).2 0).map
      (fun r => r.status) = some .maintenance :=
  ⟨rfl, rfl, rfl⟩

/-- C7 (amended): `UPDATE_RESOURCE_STATUS` is indeed a free-form status
change — any status reachable from any other — but unconditionally so: it
has no `ResourceBusy` failure and no force flag, storing the requested
status on any existing resource even while the spec's busy condition holds. -/
theorem updateResourceStatus_unvalidated (db : DB) (rid : Nat)
    (s : ResourceStatus) (now : Nat) (r : Resource)
    (h : getResource db rid = some r) :
    (updateResourceStatus db rid s now).1 = some (rid, s, now) ∧
    ∀ q ∈ (updateResourceStatus db rid s now).2.resources,
      q.id = rid → q.status = s := by
  simp only [getResource] at h
  refine ⟨?_, ?_⟩
  · unfold updateResourceStatus
    rw [h]
  · intro q hq hqid
    unfold updateResourceStatus at hq
    rw [h] at hq
    simp only at hq
    rcases List.mem_map.mp hq with ⟨w, _, rfl⟩
    by_cases hw : (w.id == rid) = true
    · rw [if_pos hw]
    · rw [if_neg hw] at hqid ⊢
      exact absurd hqid (by simpa using hw)

/-- C7 (amended) witness at the busy resource. -/
theorem updateResourceStatus_unvalidated_witness :
    (updateResourceStatus busyResourceDB 0 .unavailable 4).1 = some (0, .unavailable, 4) ∧
    ∀ q ∈ (updateResourceStatus busyResourceDB 0 .unavailable 4).2.resources,
      q.id = 0 → q.status = .unavailable :=
  updateResourceStatus_unvalidated busyResourceDB 0 .unavailable 4
    ⟨0, "CNC Machine 01", .machine, .in_use, some 10000, some 5000, none, 0, 0⟩ rfl

/-- C3 counterexample: the seed script's own allocation — 50.00 of worker
`John Smith` whose capacity is 8.00 — is accepted, and afterwards the summed
allocated quantity over the instant 3 is 50.00, exceeding the capacity; no
`CapacityExceeded` failure exists. -/
theorem insertAllocation_exceeds_capacity :
    workerOverAlloc.isOk = true ∧
    (getResource (allocOkState workerOverAlloc workerSeedDB) 0).bind
      (fun r => r.capacity) = some 800 ∧
    specUtilization (allocOkState workerOverAlloc workerSeedDB) 0 3 = 5000 ∧
    (800 : Int) < 5000 :=
  ⟨rfl, rfl, rfl, by decide⟩

/-- C3 (amended): `INSERT INTO resource_allocations` checks only the two
foreign keys and the `(order_id, resource_id, start_time)` uniqueness
triple; capacity is never consulted, so an allocation is accepted regardless
of how far it drives the overlapping sum past the resource's capacity. -/
theorem insertAllocation_no_capacity_check (db : DB) (oid rid : Nat)
    (qty : Int) (start : Nat) (stop : Option Nat) (now : Nat)
    (ho : db.orders.any (fun o => o.id == oid) = true)
    (hr : db.resources.any (fun r => r.id == rid) = true)
    (hu : db.allocations.any (fun a =>
      a.order_id == oid && a.resource_id == rid && a.start_time == start) = false) :
    insertAllocation db oid rid qty start stop now =
      .ok (db.allocations.length,
        { db with allocations := db.allocations ++
          [⟨db.allocations.length, oid, rid, qty, start, stop, none, now, now⟩] }) := by
  simp only [insertAllocation, ho, hr, hu]
  rfl

/-- C3 (amended) witness: the over-capacity seed allocation goes through. -/
theorem insertAllocation_no_capacity_check_witness :
    insertAllocation workerSeedDB 0 0 5000 0 (some 48) 0 =
      .ok (0, { workerSeedDB with allocations :=
        [⟨0, 0, 0, 5000, 0, some 48, none, 0, 0⟩] }) :=
  insertAllocation_no_capacity_check workerSeedDB 0 0 5000 0 (some 48) 0
    rfl rfl rfl

/-- C5: `INSERT INTO production_orders` enforces `CHECK (quantity > 0)`,
`CHECK (priority BETWEEN 1 AND 5)` and the UNIQUE `order_number`: a bad
quantity or priority is rejected as a validation (CHECK) error, a duplicate
order number as a duplicate-key error, and in either case the database is
left without the new order. -/
theorem createOrder_rejects_invalid (db : DB) (num pn : String)
    (qty prio : Int) (ss se : Option Nat) (now : Nat) :
    (¬ (0 < qty ∧ 1 ≤ prio ∧ prio ≤ 5) →
      createOrder db num pn qty prio ss se now = .error .ValidationError ∧
      applyOp db (.create num pn qty prio ss se now) = db) ∧
    ((0 < qty ∧ 1 ≤ prio ∧ prio ≤ 5) →
      db.orders.any (fun o => o.order_number == num) = true →
      createOrder db num pn qty prio ss se now = .error .DuplicateKey ∧
      applyOp db (.create num pn qty prio ss se now) = db) := by
  constructor
  · intro hbad
    have h1 : createOrder db num pn qty prio ss se now = .error .ValidationError := by
      simp only [createOrder, insertOrderRow, if_neg hbad]
    exact ⟨h1, by simp only [applyOp, h1]⟩
  · intro hgood hdup
    have h1 : createOrder db num pn qty prio ss se now = .error .DuplicateKey := by
      simp only [createOrder, insertOrderRow, if_pos hgood, hdup, if_true]
    exact ⟨h1, by simp only [applyOp, h1]⟩

/-- C5 witness: a negative quantity and a duplicated `PO-1`. -/
theorem createOrder_rejects_invalid_witness :
    (createOrder dupNumberDB "PO-2" "x" (-5) 3 none none 1 = .error .ValidationError ∧
      applyOp dupNumberDB (.create "PO-2" "x" (-5) 3 none none 1) = dupNumberDB) ∧
    (createOrder dupNumberDB "PO-1" "x" 10 3 none none 1 = .error .DuplicateKey ∧
      applyOp dupNumberDB (.create "PO-1" "x" 10 3 none none 1) = dupNumberDB) :=
  ⟨(createOrder_rejects_invalid dupNumberDB "PO-2" "x" (-5) 3 none none 1).1 (by decide),
   (createOrder_rejects_invalid dupNumberDB "PO-1" "x" 10 3 none none 1).2
     (by decide) rfl⟩

/-- C6 counterexample: at instant 5 only the `[0,10)` allocation (3.00)
overlaps, so the spec's `Utilization` is 3.00, but the quantity the code
computes — the aggregate sum feeding `utilizationPercent` — also counts the
`[20,30)` allocation and returns 7.00. -/
theorem utilization_not_time_filtered :
    codeUtilization twoWindowAllocDB 0 = 700 ∧
    specUtilization twoWindowAllocDB 0 5 = 300 ∧
    codeUtilization twoWindowAllocDB 0 ≠ specUtilization twoWindowAllocDB 0 5 :=
  ⟨rfl, rfl, by decide⟩

/-- C6 (amended): the utilization the code reports for a resource is the sum
of `allocated_quantity` over ALL of that resource's allocations, with no
time filter; it coincides with the spec's overlapping-at-`t` sum exactly
when every allocation of the resource contains `t`. -/
theorem utilization_sums_all_allocations (db : DB) (rid : Nat) (t : Nat)
    (h : ∀ a ∈ db.allocations, a.resource_id = rid → containsInstant a t = true) :
    codeUtilization db rid = specUtilization db rid t := by
  have hf : db.allocations.filter (fun a => a.resource_id == rid) =
      db.allocations.filter (fun a => a.resource_id == rid && containsInstant a t) := by
    apply List.filter_congr
    intro a ha
    by_cases hres : a.resource_id == rid
    · have := h a ha (by simpa using hres)
      simp [hres, this]
    · simp [hres]
  simp only [codeUtilization, specUtilization, hf]

/-- C6 (amended) witness: both allocations of the resource cover instant 5,
and the two sums agree. -/
theorem utilization_sums_all_allocations_witness :
    codeUtilization overlapAllocDB 0 = specUtilization overlapAllocDB 0 5 :=
  utilization_sums_all_allocations overlapAllocDB 0 5 (by decide)

/-- A successful `production_orders` insert appends exactly its row and
returns the fresh id; no other table moves. -/
theorem insertOrderRow_ok {db : DB} {num pn : String} {qty prio : Int}
    {st : OrderStatus} {ss se : Option Nat} {now oid : Nat} {db' : DB}
    (h : insertOrderRow db num pn qty prio st ss se now = .ok (oid, db')) :
    oid = db.orders.length ∧
    db' = { db with orders := db.orders ++
      [⟨db.orders.length, num, pn, qty, st, prio, ss, se,
        none, none, none, now, now⟩] } := by
  unfold insertOrderRow at h
  split at h
  · split at h
    · exact absurd h (by simp)
    · simp only [Except.ok.injEq, Prod.mk.injEq] at h
      exact ⟨h.1.symm, h.2.symm⟩
  · exact absurd h (by simp)

/-- A successful `resource_allocations` insert appends exactly its row and
returns the fresh id; no other table moves. -/
theorem insertAllocation_ok {db : DB} {oid rid : Nat} {qty : Int}
    {start : Nat} {stop : Option Nat} {now aid : Nat} {db' : DB}
    (h : insertAllocation db oid rid qty start stop now = .ok (aid, db')) :
    aid = db.allocations.length ∧
    db' = { db with allocations := db.allocations ++
      [⟨db.allocations.length, oid, rid, qty, start, stop, none, now, now⟩] } := by
  unfold insertAllocation at h
  split at h
  · exact absurd h (by simp)
  · split at h
    · exact absurd h (by simp)
    · split at h
      · exact absurd h (by simp)
      · simp only [Except.ok.injEq, Prod.mk.injEq] at h
        exact ⟨h.1.symm, h.2.symm⟩

/-- Any UPDATE on `production_orders` leaves the prior event log as a
prefix: the trigger can only append. -/
theorem updateOrderRow_events_append (db : DB) (oid : Nat)
    (f : ProductionOrder → ProductionOrder) (now : Nat) :
    ∃ tail, (updateOrderRow db oid f now).order_events =
      db.order_events ++ tail := by
  unfold updateOrderRow
  cases hf : db.orders.find? (fun o => o.id == oid) with
  | none => exact ⟨[], by simp⟩
  | some o =>
      by_cases hs : ((f o).status == o.status) = true
      · exact ⟨[], by simp [hs]⟩
      · exact ⟨[⟨db.order_events.length, o.id, "status_change", some o.status,
          some (f o).status, none,
          some ((f o).order_number, (f o).product_name), now⟩], by simp [hs]⟩

/-- C4: an accepted status change appends exactly one `status_change` event
recording the old and new status, in the same atomic unit (the row update
and the trigger's insert are one statement); and no command of the
repository ever rewrites or deletes existing events — every command leaves
the prior event log as a prefix. -/
theorem status_change_appends_one_event (db : DB) (oid : Nat)
    (s : OrderStatus) (now : Nat) (o : ProductionOrder)
    (h : getOrder db oid = some o) (hne : o.status ≠ s) :
    ((updateOrderStatus db oid s now).2.order_events =
      db.order_events ++
        [⟨db.order_events.length, oid, "status_change", some o.status, some s,
          none, some (o.order_number, o.product_name), now⟩]) ∧
    ∀ (d : DB) (op : Op), ∃ tail,
      (applyOp d op).order_events = d.order_events ++ tail := by
  constructor
  · simp only [getOrder] at h
    have hid : o.id = oid := by simpa using List.find?_some h
    unfold updateOrderStatus updateOrderRow
    rw [h]
    simp only
    have hs : ((s == o.status) : Bool) = false := by
      simp only [beq_eq_false_iff_ne, ne_eq]
      exact fun hh => hne hh.symm
    rw [if_neg (by simp [hs])]
    simp [hid]
  · intro d op
    cases op with
    | create num pn qty prio ss se n2 =>
        simp only [applyOp]
        cases hc : createOrder d num pn qty prio ss se n2 with
        | ok v =>
            obtain ⟨aid, db2⟩ := v
            unfold createOrder at hc
            obtain ⟨-, rfl⟩ := insertOrderRow_ok hc
            exact ⟨[], by simp⟩
        | error e => exact ⟨[], by simp⟩
    | insertRow num pn qty prio st ss se n2 =>
        simp only [applyOp]
        cases hc : insertOrderRow d num pn qty prio st ss se n2 with
        | ok v =>
            obtain ⟨aid, db2⟩ := v
            obtain ⟨-, rfl⟩ := insertOrderRow_ok hc
            exact ⟨[], by simp⟩
        | error e => exact ⟨[], by simp⟩
    | changeStatus oid2 s2 n2 =>
        simp only [applyOp, updateOrderStatus]
        cases hf : d.orders.find? (fun o => o.id == oid2) with
        | none => exact ⟨[], by simp⟩
        | some o2 => simpa using updateOrderRow_events_append d oid2 _ n2
    | setNotes oid2 txt n2 =>
        simpa only [applyOp] using updateOrderRow_events_append d oid2 _ n2
    | setResourceStatus rid2 s2 n2 =>
        simp only [applyOp, updateResourceStatus]
        cases hf : d.resources.find? (fun r => r.id == rid2) with
        | none => exact ⟨[], by simp⟩
        | some r2 => exact ⟨[], by simp⟩
    | allocate oid2 rid2 qty start stop n2 =>
        simp only [applyOp]
        cases hc : insertAllocation d oid2 rid2 qty start stop n2 with
        | ok v =>
            obtain ⟨aid, db2⟩ := v
            obtain ⟨-, rfl⟩ := insertAllocation_ok hc
            exact ⟨[], by simp⟩
        | error e => exact ⟨[], by simp⟩

/-- C4 witness: restarting the completed seed order logs exactly one
`completed → in_progress` event. -/
theorem status_change_appends_one_event_witness :
    ((updateOrderStatus oneCompletedOrderDB 0 .in_progress 8).2.order_events =
      oneCompletedOrderDB.order_events ++
        [⟨0, 0, "status_change", some .completed, some .in_progress,
          none, some ("PO-2024-005", "Control Panel Bracket"), 8⟩]) ∧
    ∀ (d : DB) (op : Op), ∃ tail,
      (applyOp d op).order_events = d.order_events ++ tail :=
  status_change_appends_one_event oneCompletedOrderDB 0 .in_progress 8
    ⟨0, "PO-2024-005", "Control Panel Bracket", 75, .completed, 3,
      none, none, none, none, none, 0, 0⟩ rfl (by decide)

/-- C10: an UPDATE whose SET list leaves `status` equal to its previous
value — editing notes or re-setting the same status — fires no
`log_order_status_change` insert, so the event log is unchanged, while
`update_updated_at_column` still advances `updated_at` to the statement
time. -/
theorem same_status_update_no_event (db : DB) (oid : Nat)
    (f : ProductionOrder → ProductionOrder) (now : Nat)
    (o : ProductionOrder) (h : getOrder db oid = some o)
    (hst : (f o).status = o.status) :
    (updateOrderRow db oid f now).order_events = db.order_events ∧
    ∀ p ∈ (updateOrderRow db oid f now).orders,
      p.id = oid → p.updated_at = now := by
  simp only [getOrder] at h
  constructor
  · unfold updateOrderRow
    rw [h]
    simp [hst]
  · intro p hp hpid
    unfold updateOrderRow at hp
    rw [h] at hp
    simp only at hp
    rcases List.mem_map.mp hp with ⟨q, _, rfl⟩
    by_cases hq : (q.id == oid) = true
    · rw [if_pos hq]
    · rw [if_neg hq] at hpid ⊢
      exact absurd hpid (by simpa using hq)

/-- C10 witness: writing a note onto the completed seed order. -/
theorem same_status_update_no_event_witness :
    (updateOrderRow oneCompletedOrderDB 0
        (fun o => { o with notes := some "checked" }) 5).order_events =
      oneCompletedOrderDB.order_events ∧
    ∀ p ∈ (updateOrderRow oneCompletedOrderDB 0
        (fun o => { o with notes := some "checked" }) 5).orders,
      p.id = 0 → p.updated_at = 5 :=
  same_status_update_no_event oneCompletedOrderDB 0
    (fun o => { o with notes := some "checked" }) 5
    ⟨0, "PO-2024-005", "Control Panel Bracket", 75, .completed, 3,
      none, none, none, none, none, 0, 0⟩ rfl rfl

/-- C8: `CreateOrder` (an insert that lets `status`, `created_at`,
`updated_at` take their defaults) followed immediately by `GetOrder` on the
returned id yields a `pending` order whose `created_at` equals its
`updated_at` and whose event log is empty. -/
theorem createOrder_roundtrip (db : DB) (num pn : String) (qty prio : Int)
    (ss se : Option Nat) (now : Nat)
    (hids : ∀ p ∈ db.orders, p.id < db.orders.length)
    (hev : ∀ e ∈ db.order_events, e.order_id < db.orders.length)
    (hq : 0 < qty) (hp1 : 1 ≤ prio) (hp5 : prio ≤ 5)
    (hnum : db.orders.any (fun o => o.order_number == num) = false) :
    ∃ db', createOrder db num pn qty prio ss se now =
        .ok (db.orders.length, db') ∧
      ∃ o, getOrder db' db.orders.length = some o ∧
        o.status = .pending ∧ o.created_at = o.updated_at ∧
        eventsFor db' db.orders.length = [] := by
  have hc : createOrder db num pn qty prio ss se now =
      .ok (db.orders.length, { db with orders := db.orders ++
        [⟨db.orders.length, num, pn, qty, .pending, prio, ss, se,
          none, none, none, now, now⟩] }) := by
    simp [createOrder, insertOrderRow, hnum, hq, hp1, hp5]
  refine ⟨_, hc, ⟨db.orders.length, num, pn, qty, .pending, prio, ss, se,
    none, none, none, now, now⟩, ?_, rfl, rfl, ?_⟩
  · simp only [getOrder]
    rw [List.find?_append]
    have hl : db.orders.find? (fun o => o.id == db.orders.length) = none := by
      rw [List.find?_eq_none]
      intro p hp
      simpa using Nat.ne_of_lt (hids p hp)
    rw [hl]
    simp
  · simp only [eventsFor]
    rw [List.filter_eq_nil_iff]
    intro e he
    simpa using Nat.ne_of_lt (hev e he)

/-- C8 witness: creating `PO-1` in the empty database. -/
theorem createOrder_roundtrip_witness :
    ∃ db', createOrder emptyDB "PO-1" "valve" 10 3 none none 4 =
        .ok (emptyDB.orders.length, db') ∧
      ∃ o, getOrder db' emptyDB.orders.length = some o ∧
        o.status = .pending ∧ o.created_at = o.updated_at ∧
        eventsFor db' emptyDB.orders.length = [] :=
  createOrder_roundtrip emptyDB "PO-1" "valve" 10 3 none none 4
    (by simp [emptyDB]) (by simp [emptyDB]) (by decide) (by decide) (by decide) rfl

/-- An order together with an event log: two transitions recorded for order
0 and one for order 1, out of `created_at` order in the table. -/
def eventLogDB : DB :=
  { emptyDB with
    orders :=
      [⟨0, "PO-1", "valve", 10, .in_progress, 3,
        none, none, none, none, none, 0, 2⟩],
    order_events :=
      [⟨0, 0, "status_change", some .pending, some .scheduled, none, none, 1⟩,
       ⟨2, 1, "status_change", some .pending, some .cancelled, none, none, 3⟩,
       ⟨1, 0, "status_change", some .scheduled, some .in_progress, none, none, 2⟩] }

/-- C9: `History(orderId, limit)` — the nested
`order_events(order_by: { created_at: desc }, limit: n)` selection — returns
at most `limit` events, most recent first, and every returned event belongs
to the requested order. -/
theorem history_spec (db : DB) (oid : Nat) (n : Nat) :
    (history db oid n).length ≤ n ∧
    List.Sorted eventDescOrder (history db oid n) ∧
    ∀ e ∈ history db oid n, e.order_id = oid := by
  refine ⟨?_, ?_, ?_⟩
  · simp only [history]
    rw [List.length_take]
    exact min_le_left _ _
  · exact List.Pairwise.sublist (List.take_sublist _ _)
      (List.sorted_insertionSort eventDescOrder _)
  · intro e he
    have h1 : e ∈ List.insertionSort eventDescOrder (eventsFor db oid) :=
      List.mem_of_mem_take he
    have h2 : e ∈ eventsFor db oid := (List.mem_insertionSort _).mp h1
    simpa using (List.mem_filter.mp h2).2

/-- C9 witness at a three-event log. -/
theorem history_spec_witness :
    (history eventLogDB 0 2).length ≤ 2 ∧
    List.Sorted eventDescOrder (history eventLogDB 0 2) ∧
    ∀ e ∈ history eventLogDB 0 2, e.order_id = 0 :=
  history_spec eventLogDB 0 2

/-- The seed script's INSERT of `PO-2024-001` directly in `in_progress`. -/
def seededInsert : Except CreateError (Nat × DB) :=
  insertOrderRow emptyDB "PO-2024-001" "Industrial Valve Type A" 100 5
    .in_progress (some 0) (some 48) 0

/-- The database that INSERT leaves behind. -/
def seededDB : DB := orderOkState seededInsert emptyDB

/-- C2 counterexample: the seed script inserts `PO-2024-001` directly in
`in_progress`; `log_order_status_change` only fires on UPDATE, so the
order's event log is empty and replays from `pending` to `pending`, not to
the order's actual status. -/
theorem replay_fails_for_seeded_order :
    seededInsert.isOk = true ∧
    (getOrder seededDB 0).map (fun o => o.status) = some .in_progress ∧
    replayEvents .pending (eventsFor seededDB 0) = .pending ∧
    OrderStatus.in_progress ≠ OrderStatus.pending :=
  ⟨rfl, rfl, rfl, by decide⟩

/-- Replaying one appended event lands on that event's `new_status`. -/
theorem replayEvents_append_single (s : OrderStatus) (es : List OrderEvent)
    (e : OrderEvent) :
    replayEvents s (es ++ [e]) = e.new_status.getD (replayEvents s es) := by
  simp [replayEvents, List.foldl_append]

/-- A row-wise map that keeps every id keeps the id/position discipline. -/
theorem map_ids_range {l : List ProductionOrder}
    (g : ProductionOrder → ProductionOrder) (hg : ∀ p, (g p).id = p.id)
    (h : l.map (fun p => p.id) = List.range l.length) :
    (l.map g).map (fun p => p.id) = List.range (l.map g).length := by
  rw [List.map_map, List.length_map,
    show ((fun p => p.id) ∘ g) = (fun (p : ProductionOrder) => p.id) from
      funext fun p => hg p]
  exact h

/-- `updateOrderRow`, written out, once the row has been found. -/
theorem updateOrderRow_eq_of_found {db : DB} {oid : Nat}
    {f : ProductionOrder → ProductionOrder} {now : Nat} {o : ProductionOrder}
    (hf : db.orders.find? (fun p => p.id == oid) = some o) :
    updateOrderRow db oid f now =
      { db with
        orders := db.orders.map (fun p =>
          if p.id == oid then { f p with updated_at := now } else p),
        order_events :=
          if (f o).status = o.status then db.order_events
          else db.order_events ++
            [⟨db.order_events.length, o.id, "status_change", some o.status,
              some (f o).status, none,
              some ((f o).order_number, (f o).product_name), now⟩] } := by
  unfold updateOrderRow
  rw [hf]
  dsimp only
  by_cases hs : ((f o).status == o.status) = true
  · rw [if_pos hs, if_pos (by simpa using hs)]
  · rw [if_neg hs, if_neg (by simpa using hs)]

/-- An UPDATE that touches neither `status` nor `id` preserves the three
invariants. -/
theorem samestatus_update_preserves_inv (db : DB) (oid : Nat)
    (f : ProductionOrder → ProductionOrder) (now : Nat)
    (hfid : ∀ p, (f p).id = p.id) (hfst : ∀ p, (f p).status = p.status)
    (h1 : IdsInv db) (h2 : FKInv db) (h3 : ReplayInv db) :
    IdsInv (updateOrderRow db oid f now) ∧
    FKInv (updateOrderRow db oid f now) ∧
    ReplayInv (updateOrderRow db oid f now) := by
  cases hf : db.orders.find? (fun p => p.id == oid) with
  | none =>
      unfold updateOrderRow
      rw [hf]
      exact ⟨h1, h2, h3⟩
  | some o =>
      rw [updateOrderRow_eq_of_found hf, if_pos (hfst o)]
      refine ⟨?_, ?_, ?_⟩
      · exact map_ids_range _
          (fun p => by
            by_cases hq : (p.id == oid) = true
            · rw [if_pos hq]; exact hfid p
            · rw [if_neg hq]) h1
      · intro e he
        simp only [List.length_map]
        exact h2 e he
      · intro p' hp'
        rcases List.mem_map.mp hp' with ⟨p, hp, rfl⟩
        by_cases hq : (p.id == oid) = true
        · rw [if_pos hq]
          show replayEvents .pending
            (eventsFor _ ({ f p with updated_at := now } : ProductionOrder).id) = _
          have hid : ({ f p with updated_at := now } : ProductionOrder).id = p.id := hfid p
          rw [hid]
          exact (h3 p hp).trans (hfst p).symm
        · rw [if_neg hq]
          exact h3 p hp

/-- `UPDATE_ORDER_STATUS` preserves the three invariants: the trigger logs
exactly the transition the update performs. -/
theorem changeStatus_preserves_inv (db : DB) (oid : Nat) (s : OrderStatus)
    (now : Nat) (h1 : IdsInv db) (h2 : FKInv db) (h3 : ReplayInv db) :
    IdsInv (updateOrderStatus db oid s now).2 ∧
    FKInv (updateOrderStatus db oid s now).2 ∧
    ReplayInv (updateOrderStatus db oid s now).2 := by
  unfold updateOrderStatus
  cases hf : db.orders.find? (fun p => p.id == oid) with
  | none => exact ⟨h1, h2, h3⟩
  | some o =>
      simp only
      have ho : o ∈ db.orders := List.mem_of_find?_eq_some hf
      have hoid : o.id = oid := by simpa using List.find?_some hf
      have holt : o.id < db.orders.length := by
        have : o.id ∈ db.orders.map (fun p => p.id) :=
          List.mem_map.mpr ⟨o, ho, rfl⟩
        rw [h1] at this
        exact List.mem_range.mp this
      have hnd : (db.orders.map (fun p => p.id)).Nodup := by
        rw [h1]; exact List.nodup_range _
      rw [updateOrderRow_eq_of_found hf]
      dsimp only
      have hgid : ∀ p : ProductionOrder,
          ((if p.id == oid then
            { p with status := s, updated_at := now } else p) :
            ProductionOrder).id = p.id := by
        intro p
        by_cases hq : (p.id == oid) = true
        · rw [if_pos hq]
        · rw [if_neg hq]
      by_cases hss : s = o.status
      · rw [if_pos hss]
        refine ⟨map_ids_range _ hgid h1, ?_, ?_⟩
        · intro e he
          simp only [List.length_map]
          exact h2 e he
        · intro p' hp'
          rcases List.mem_map.mp hp' with ⟨p, hp, rfl⟩
          by_cases hq : (p.id == oid) = true
          · rw [if_pos hq]
            have hpid : p.id = oid := by simpa using hq
            have hpo : p = o :=
              List.inj_on_of_nodup_map hnd hp ho (by rw [hpid, hoid])
            have hps : p.status = s := by rw [hpo, ← hss]
            exact (h3 p hp).trans hps
          · rw [if_neg hq]
            exact h3 p hp
      · rw [if_neg hss]
        refine ⟨map_ids_range _ hgid h1, ?_, ?_⟩
        · intro e he
          simp only [List.length_map]
          rcases List.mem_append.mp he with hold | hnew
          · exact h2 e hold
          · rw [List.mem_singleton.mp hnew]
            exact holt
        · intro p' hp'
          rcases List.mem_map.mp hp' with ⟨p, hp, rfl⟩
          by_cases hq : (p.id == oid) = true
          · rw [if_pos hq]
            have hpid : p.id = oid := by simpa using hq
            show replayEvents .pending (eventsFor _ p.id) = s
            have hev : eventsFor
                { db with
                  orders := db.orders.map (fun p =>
                    if p.id == oid then
                      { p with status := s, updated_at := now } else p),
                  order_events := db.order_events ++
                    [⟨db.order_events.length, o.id, "status_change",
                      some o.status, some s, none,
                      some (o.order_number, o.product_name), now⟩] } p.id =
                eventsFor db p.id ++
                  [⟨db.order_events.length, o.id, "status_change",
                    some o.status, some s, none,
                    some (o.order_number, o.product_name), now⟩] := by
              simp only [eventsFor, List.filter_append]
              congr 1
              simp [hoid, hpid]
            rw [hev, replayEvents_append_single]
            rfl
          · rw [if_neg hq]
            have hpid : p.id ≠ oid := by simpa using hq
            have hev : eventsFor
                { db with
                  orders := db.orders.map (fun p =>
                    if p.id == oid then
                      { p with status := s, updated_at := now } else p),
                  order_events := db.order_events ++
                    [⟨db.order_events.length, o.id, "status_change",
                      some o.status, some s, none,
                      some (o.order_number, o.product_name), now⟩] } p.id =
                eventsFor db p.id := by
              simp only [eventsFor, List.filter_append]
              have : o.id ≠ p.id := by rw [hoid]; exact fun hh => hpid hh.symm
              simp [this]
            rw [hev]
            exact h3 p hp

/-- Appending a fresh `pending` row preserves the three invariants. -/
theorem snoc_preserves_inv (db : DB) (row : ProductionOrder)
    (hrid : row.id = db.orders.length) (hrst : row.status = .pending)
    (h1 : IdsInv db) (h2 : FKInv db) (h3 : ReplayInv db) :
    IdsInv { db with orders := db.orders ++ [row] } ∧
    FKInv { db with orders := db.orders ++ [row] } ∧
    ReplayInv { db with orders := db.orders ++ [row] } := by
  refine ⟨?_, ?_, ?_⟩
  · show (db.orders ++ [row]).map (fun p => p.id) =
      List.range (db.orders ++ [row]).length
    rw [List.map_append, h1, List.length_append]
    simp [List.range_succ, hrid]
  · intro e he
    show e.order_id < (db.orders ++ [row]).length
    rw [List.length_append]
    exact Nat.lt_succ_of_lt (h2 e he)
  · intro p hp
    rcases List.mem_append.mp hp with hpo | hpn
    · exact h3 p hpo
    · rw [List.mem_singleton.mp hpn, hrid, hrst]
      have hempty : eventsFor db db.orders.length = [] := by
        simp only [eventsFor]
        rw [List.filter_eq_nil_iff]
        intro e he
        simpa using Nat.ne_of_lt (h2 e he)
      show replayEvents .pending (eventsFor db db.orders.length) = .pending
      rw [hempty]
      rfl

/-- Every command of the repository preserves the id discipline, the
event-log foreign key and — as long as order rows are only created in the
default `pending` state — the replay invariant. -/
theorem applyOp_preserves_inv (db : DB) (op : Op)
    (h1 : IdsInv db) (h2 : FKInv db) (h3 : ReplayInv db)
    (hop : opCreatesPending op = true) :
    IdsInv (applyOp db op) ∧ FKInv (applyOp db op) ∧
    ReplayInv (applyOp db op) := by
  cases op with
  | create num pn qty prio ss se n2 =>
      simp only [applyOp]
      cases hc : createOrder db num pn qty prio ss se n2 with
      | ok v =>
          obtain ⟨oid, db2⟩ := v
          unfold createOrder at hc
          obtain ⟨-, rfl⟩ := insertOrderRow_ok hc
          exact snoc_preserves_inv db _ rfl rfl h1 h2 h3
      | error e => exact ⟨h1, h2, h3⟩
  | insertRow num pn qty prio st ss se n2 =>
      have hst : st = .pending := by simpa [opCreatesPending] using hop
      subst hst
      simp only [applyOp]
      cases hc : insertOrderRow db num pn qty prio .pending ss se n2 with
      | ok v =>
          obtain ⟨oid, db2⟩ := v
          obtain ⟨-, rfl⟩ := insertOrderRow_ok hc
          exact snoc_preserves_inv db _ rfl rfl h1 h2 h3
      | error e => exact ⟨h1, h2, h3⟩
  | changeStatus oid s n2 =>
      simpa only [applyOp] using changeStatus_preserves_inv db oid s n2 h1 h2 h3
  | setNotes oid txt n2 =>
      simp only [applyOp]
      exact samestatus_update_preserves_inv db oid _ n2
        (fun p => rfl) (fun p => rfl) h1 h2 h3
  | setResourceStatus rid s n2 =>
      simp only [applyOp, updateResourceStatus]
      cases hf : db.resources.find? (fun r => r.id == rid) with
      | none => exact ⟨h1, h2, h3⟩
      | some r => exact ⟨h1, h2, h3⟩
  | allocate oid rid qty start stop n2 =>
      simp only [applyOp]
      cases hc : insertAllocation db oid rid qty start stop n2 with
      | ok v =>
          obtain ⟨aid, db2⟩ := v
          obtain ⟨-, rfl⟩ := insertAllocation_ok hc
          exact ⟨h1, h2, h3⟩
      | error e => exact ⟨h1, h2, h3⟩

/-- C2 (amended): provided every order row is created in the default
`pending` state (the seed script's direct non-pending INSERTs are exactly
the violations), then after any sequence of the repository's commands each
order's status equals the replay of its event log from `pending` in
recorded order. -/
theorem replay_reconstructs_status (db : DB) (ops : List Op)
    (h1 : IdsInv db) (h2 : FKInv db) (h3 : ReplayInv db)
    (hops : ∀ op ∈ ops, opCreatesPending op = true) :
    ∀ p ∈ (applyOps db ops).orders,
      replayEvents .pending (eventsFor (applyOps db ops) p.id) = p.status := by
  induction ops generalizing db with
  | nil => exact h3
  | cons op rest ih =>
      have h := applyOp_preserves_inv db op h1 h2 h3 (hops op (by simp))
      exact ih (applyOp db op) h.1 h.2.1 h.2.2
        (fun o ho => hops o (by simp [ho]))

/-- C2 (amended) witness: create an order, schedule it, start it, note it —
replay of its two logged transitions lands on `in_progress`. -/
theorem replay_reconstructs_status_witness :
    replayEvents .pending (eventsFor (applyOps emptyDB
      [.create "PO-1" "valve" 10 3 none none 1,
       .changeStatus 0 .scheduled 2,
       .changeStatus 0 .in_progress 3,
       .setNotes 0 "running" 4]) 0) = .in_progress :=
  replay_reconstructs_status emptyDB
    [.create "PO-1" "valve" 10 3 none none 1,
     .changeStatus 0 .scheduled 2,
     .changeStatus 0 .in_progress 3,
     .setNotes 0 "running" 4]
    rfl (by simp [FKInv, emptyDB]) (by simp [ReplayInv, emptyDB])
    (by decide)
    ⟨0, "PO-1", "valve", 10, .in_progress, 3, none, none, none, none,
      some "running", 1, 4⟩
    (by decide)

end ProdSched
